import Mathlib

/-!
Shallow embedding of the SQL-injection detection core of the dursgo scanner
(`internal/scanner/sqli/sqli.go`), together with theorems settling the claims
of the natural-language specification against it.

Modelling conventions:
* Go strings are modelled as `List Char` (`Str`); `len` is the list length
  (byte vs. rune distinctions are outside the model).
* `url.Values` (a map from names to value lists) is modelled as an association
  list with map semantics for `Get`/`Set` (`UrlValues`).
* The external environment — URL/form parsing (`net/url`), the HTTP client,
  and the Levenshtein library (`github.com/agext/levenshtein`) — is modelled
  as a `World` of response functions: each outbound request is determined by
  the parameter map it carries, and the `World` assigns it an outcome
  (`none` models a transport/parse error).  The payload catalog
  (`internal/payloads`, not part of this package) is a `Catalog` value.
* `float64` comparisons on similarity/length ratios are modelled exactly over
  `ℚ`; `time.Duration` is nanoseconds as `ℕ`.
* `fmt.Sprintf` diagnostics that interpolate numbers are abstracted to their
  format template; those interpolating only strings are concatenated
  faithfully.  No claim depends on the diagnostic strings.
-/

namespace Dursgo

/-- Go strings, modelled as lists of characters. -/
abbrev Str := List Char

/-- Go `strings.Contains s sub` : `sub` occurs as a contiguous substring of `s`. -/
def strContains : Str → Str → Bool
  | s@(_ :: rest), sub => sub.isPrefixOf s || strContains rest sub
  | [], sub => sub.isEmpty

/-- Go `strings.ToLower` (ASCII suffices for every use in this package). -/
def lowerStr (s : Str) : Str := s.map Char.toLower

/-- Model of `url.Values`: a map from parameter names to lists of values, modelled as an
association list (at most the first binding of a key is ever consulted). -/
structure UrlValues where
  entries : List (Str × List Str)
deriving DecidableEq

/-- Helper for `UrlValues.get`: first binding wins, empty value list means `""`. -/
def getFirst : List (Str × List Str) → Str → Str
  | [], _ => []
  | (k, vs) :: rest, key => if k = key then vs.headD [] else getFirst rest key

/-- Helper for `UrlValues.set`: replace the first binding of `key` (map update),
append a fresh binding if absent. -/
def setFirst : List (Str × List Str) → Str → Str → List (Str × List Str)
  | [], key, val => [(key, [val])]
  | (k, vs) :: rest, key, val =>
    if k = key then (key, [val]) :: rest else (k, vs) :: setFirst rest key val

/-- Go `url.Values.Get`: first value of the key, or `""` when absent/empty. -/
def UrlValues.get (v : UrlValues) (key : Str) : Str := getFirst v.entries key

/-- Go `url.Values.Set`: `v[key] = []string{value}`. -/
def UrlValues.set (v : UrlValues) (key val : Str) : UrlValues :=
  ⟨setFirst v.entries key val⟩

/-- Source `copyParams` (sqli.go): a deep copy; values are immutable here, so the copy
is the identity. -/
def copyParams (original : UrlValues) : UrlValues := original

/-- The auth-bypass loops `for key := range params` that overwrite every
parameter whose lowercased name contains `password` with a fixed value. -/
def setPasswords (v : UrlValues) (val : Str) : UrlValues :=
  ⟨v.entries.map fun kv =>
    if strContains (lowerStr kv.1) ("password".toList) then (kv.1, [val]) else kv⟩

/-- Model of `crawler.ParameterizedRequest`, the fields consumed by the SQLi scanner. -/
structure ParameterizedRequest where
  Method : Str
  URL : Str
  FormPostData : Str
  ParamNames : List Str
deriving DecidableEq

/-- Model of `scanner.VulnerabilityResult`, the finding record. -/
structure VulnerabilityResult where
  VulnerabilityType : Str
  URL : Str
  Parameter : Str
  Payload : Str
  Details : Str
  Severity : Str
  Evidence : Str
  Location : Str
  Remediation : Str
  ScannerName : Str
deriving DecidableEq

/-- The raw response observed by the redirect-inhibited client in
`testAuthBypass`: status code, `resp.Location()` outcome, the names of the
cookies set on the response, and the `io.ReadAll(resp.Body)` outcome. -/
structure RawResp where
  status : Nat
  location : Option Str
  cookies : List Str
  body : Option Str
deriving DecidableEq

/-- The external environment of one `Scan` call.  Every outbound request built
by the harness is a function of the parameter map it carries (the request's
method/URL being fixed), so the environment is a family of outcome functions;
`none` models a transport or parse error. -/
structure World where
  /-- Outcome of `getOriginalParams(req)`: parsing the URL query (GET) or
  `FormPostData` (POST) via `net/url`; `none` models a parse error. -/
  origParams : Option UrlValues
  /-- For GET, the `(u.String(), err)` of `buildRequestComponents`: re-encoding
  the parameters onto the parsed request URL; `none` models a parse error. -/
  buildURL : UrlValues → Option Str
  /-- Outcome of `sendRequest`: status code and fully-read body. -/
  send : UrlValues → Option (Nat × Str)
  /-- Outcome of `measureRequestDuration` on concrete params: wall time in
  nanoseconds from send to body drain. -/
  measure : UrlValues → Option Nat
  /-- Outcome of issuing the request through `GetClientWithoutRedirects`. -/
  sendNR : UrlValues → Option RawResp
  /-- Outcome of `client.GetWithCookies(location, cookies)`: the follow-up body. -/
  follow : Str → List Str → Option Str
  /-- Outcome of `levenshtein.Distance(a, b, nil)` from `github.com/agext/levenshtein`. -/
  levDist : Str → Str → Nat

/-- The read-only payload catalog (`internal/payloads`), external to this
package.  A regex from `SQLiErrorPatterns` is modelled as its matcher: `some m`
when `MatchString` holds, with `m` the `FindString` result. -/
structure Catalog where
  SQLiPayloads : List Str
  SQLiErrorPatterns : List (Str → Option Str)
  /-- Entries of `TimeBasedSQLiTests`, each reduced to its `PayloadTemplate`. -/
  TimeBasedSQLiTests : List Str
  /-- Entries of `BooleanSQLiTests`, each as `(TruePayload, FalsePayload)`. -/
  BooleanSQLiTests : List (Str × Str)

/-- Source `ignoredParams` (sqli.go lines 21-27), as the set of its keys. -/
def ignoredParams : List Str :=
  ["_csrf_token".toList, "csrf_token".toList, "csrf".toList,
   "token".toList, "_token".toList]

/-- Source `specialPaths` (sqli.go lines 30-34). -/
def specialPaths : List Str := ["/comment".toList, "/register".toList]

/-- Value of `Name()` of the scanner. -/
def scannerName : Str := "Advanced SQL Injection Scanner".toList

/-- Source `getParamLocation`. -/
def getParamLocation (req : ParameterizedRequest) : Str :=
  if req.Method = ("GET".toList) then "query".toList else "body".toList

/-- Source `getOriginalParams`: parsing is delegated to the environment (it depends
only on the fixed request), so the outcome is a constant of the `World`. -/
def getOriginalParams (w : World) : Option UrlValues := w.origParams

/-- Source `buildRequestComponents`, projected to the URL component (the body reader
is folded into the send functions): for GET the re-encoded URL (parse errors
possible), for POST the request URL unchanged. -/
def buildRequestComponents (w : World) (req : ParameterizedRequest)
    (params : UrlValues) : Option Str :=
  if req.Method = ("GET".toList) then w.buildURL params else some req.URL

/-- The `testURL, _, _ := buildRequestComponents(...)` idiom used when a
finding is recorded: the error is dropped and a failed build leaves `""`. -/
def findingURL (w : World) (req : ParameterizedRequest) (params : UrlValues) : Str :=
  (buildRequestComponents w req params).getD []

/-- Source `sendRequest` (status, body); build/transport/read errors collapse to `none`. -/
def sendRequest (w : World) (params : UrlValues) : Option (Nat × Str) :=
  w.send params

/-- Source `measureRequestDuration`: a `nil` params argument falls back to
`getOriginalParams`; all downstream errors collapse to `none`. -/
def measureRequestDuration (w : World) (params : Option UrlValues) : Option Nat :=
  match params with
  | none =>
    match getOriginalParams w with
    | none => none
    | some p => w.measure p
  | some p => w.measure p

/-- Source `isDifferentResponse` (sqli.go lines 546-557).  The `float64` similarity
comparison is modelled exactly over `ℚ`. -/
def isDifferentResponse (w : World) (original modified : Str) : Bool :=
  let distance := w.levDist original modified
  let maxLen := if modified.length > original.length then modified.length else original.length
  if maxLen = 0 then false
  else decide ((1 : ℚ) - (distance : ℚ) / (maxLen : ℚ) < 95 / 100)

/-- The spec's wording of the comparator (§4.3): similarity
`1 − distance/max(len(a), len(b))` is below `0.95`, and the result is false
when both strings are empty. -/
def isDifferent_spec (w : World) (a b : Str) : Bool :=
  if a.length = 0 ∧ b.length = 0 then false
  else decide ((1 : ℚ) - (w.levDist a b : ℚ) / ((max a.length b.length : Nat) : ℚ) < 95 / 100)

/-- Claim C4: `isDifferent(a, b)` returns
`(1 − levenshteinDistance(a,b)/max(len(a), len(b))) < 0.95`, and returns false
when both strings are empty: the source comparator coincides with the spec's
formula for all strings and any distance function. -/
theorem sqli_C4_isDifferent (w : World) (a b : Str) :
    isDifferentResponse w a b = isDifferent_spec w a b := by
  unfold isDifferentResponse isDifferent_spec
  have hmax : (if b.length > a.length then b.length else a.length) = max a.length b.length := by
    rcases Nat.lt_or_ge a.length b.length with h | h
    · simp [h, Nat.max_eq_right (Nat.le_of_lt h)]
    · simp [Nat.not_lt.mpr h, Nat.max_eq_left h]
  rw [hmax]
  have hzero : (max a.length b.length = 0) ↔ (a.length = 0 ∧ b.length = 0) := by
    constructor
    · intro h
      exact ⟨Nat.le_zero.mp (le_trans (Nat.le_max_left _ _) (Nat.le_of_eq h)),
             Nat.le_zero.mp (le_trans (Nat.le_max_right _ _) (Nat.le_of_eq h))⟩
    · intro ⟨h1, h2⟩
      simp [h1, h2]
  by_cases h : max a.length b.length = 0
  · simp [h, hzero.mp h]
  · rw [if_neg h, if_neg (fun hc => h (hzero.mpr hc))]

/-! ### Error-signature probe (`testErrorBased`, sqli.go lines 115-151) -/

/-- The finding recorded by `testErrorBased` on a pattern match. -/
def errVuln (w : World) (req : ParameterizedRequest) (paramName payload : Str)
    (testParams : UrlValues) (ev : Str) : VulnerabilityResult :=
  { VulnerabilityType := "SQL Injection (Error-Based)".toList
    URL := findingURL w req testParams
    Parameter := paramName
    Payload := payload
    Details := ("A database error message was detected in the response, " ++
                "indicating a potential SQL injection vulnerability.").toList
    Severity := "High".toList
    Evidence := ev
    Location := getParamLocation req
    Remediation := "Use parameterized queries (prepared statements).".toList
    ScannerName := scannerName }

/-- The inner pattern loop of `testErrorBased`: the first matching regex
yields the finding (evidence is the `FindString` result). -/
def errPatLoop (w : World) (req : ParameterizedRequest) (paramName payload : Str)
    (testParams : UrlValues) (body : Str) :
    List (Str → Option Str) → Option VulnerabilityResult
  | [] => none
  | pat :: rest =>
    match pat body with
    | some ev => some (errVuln w req paramName payload testParams ev)
    | none => errPatLoop w req paramName payload testParams body rest

/-- The payload loop of `testErrorBased`. -/
def errLoop (cat : Catalog) (w : World) (req : ParameterizedRequest)
    (paramName : Str) : List Str → Option VulnerabilityResult
  | [] => none
  | payload :: rest =>
    match getOriginalParams w with
    | none => errLoop cat w req paramName rest
    | some tp =>
      let testParams := tp.set paramName (tp.get paramName ++ payload)
      match sendRequest w testParams with
      | none => errLoop cat w req paramName rest
      | some (_, body) =>
        match errPatLoop w req paramName payload testParams body cat.SQLiErrorPatterns with
        | some v => some v
        | none => errLoop cat w req paramName rest

/-- Source `testErrorBased`. -/
def testErrorBased (cat : Catalog) (w : World) (req : ParameterizedRequest)
    (paramName : Str) : Option VulnerabilityResult :=
  errLoop cat w req paramName cat.SQLiPayloads

/-! ### Time-delay probe (`testTimeBased`, sqli.go lines 155-195) -/

/-- Go `strings.Replace(s, pat, rep, -1)`: replace every non-overlapping
occurrence, left to right (`pat` is the non-empty literal in every use here). -/
def replaceAll (pat rep : Str) : Str → Str
  | [] => []
  | c :: rest =>
    if pat.isPrefixOf (c :: rest) ∧ pat ≠ []
    then rep ++ replaceAll pat rep (rest.drop (pat.length - 1))
    else c :: replaceAll pat rep rest
termination_by s => s.length
decreasing_by
  · simp only [List.length_drop, List.length_cons]
    omega
  · simp

/-- One second of `time.Duration`, in nanoseconds. -/
def secondNs : Nat := 1000000000

/-- The finding recorded by `testTimeBased` (numeric diagnostics as template). -/
def timeVuln (w : World) (req : ParameterizedRequest) (paramName payloadStr : Str)
    (testParams : UrlValues) : VulnerabilityResult :=
  { VulnerabilityType := "SQL Injection (Time-Based)".toList
    URL := findingURL w req testParams
    Parameter := paramName
    Payload := payloadStr
    Details := ("A time delay of %.2f seconds was detected " ++
                "(baseline: %.2f seconds).").toList
    Severity := "High".toList
    Evidence := "Response time: %s".toList
    Location := getParamLocation req
    Remediation := "Use parameterized queries (prepared statements).".toList
    ScannerName := scannerName }

/-- The payload loop of `testTimeBased`. -/
def timeLoop (w : World) (req : ParameterizedRequest) (paramName : Str)
    (baselineDuration : Nat) : List Str → Option VulnerabilityResult
  | [] => none
  | template :: rest =>
    match getOriginalParams w with
    | none => timeLoop w req paramName baselineDuration rest
    | some tp =>
      let payloadStr := replaceAll ("{DELAY}".toList) ("5".toList) template
      let testParams := tp.set paramName (tp.get paramName ++ payloadStr)
      match w.measure testParams with
      | none => timeLoop w req paramName baselineDuration rest
      | some testDuration =>
        if baselineDuration + 4 * secondNs < testDuration then
          some (timeVuln w req paramName payloadStr testParams)
        else timeLoop w req paramName baselineDuration rest

/-- Source `testTimeBased`: baseline via `measureRequestDuration(req, client, nil)`. -/
def testTimeBased (cat : Catalog) (w : World) (req : ParameterizedRequest)
    (paramName : Str) : Option VulnerabilityResult :=
  match measureRequestDuration w none with
  | none => none
  | some baselineDuration => timeLoop w req paramName baselineDuration cat.TimeBasedSQLiTests

/-! ### Boolean-differential probe (`testBooleanBased`, sqli.go lines 199-245) -/

/-- The finding recorded by `testBooleanBased`. -/
def boolVuln (w : World) (req : ParameterizedRequest) (paramName payload : Str)
    (trueParams : UrlValues) : VulnerabilityResult :=
  { VulnerabilityType := "SQL Injection (Boolean-Based)".toList
    URL := findingURL w req trueParams
    Parameter := paramName
    Payload := payload
    Details := ("The application's response was different when a logically " ++
                "false SQL condition was injected compared to a true one.").toList
    Severity := "High".toList
    Evidence := ("Response for TRUE condition was similar to original, " ++
                 "while response for FALSE was different.").toList
    Location := getParamLocation req
    Remediation := "Use parameterized queries (prepared statements).".toList
    ScannerName := scannerName }

/-- The pair loop of `testBooleanBased`. -/
def boolLoop (w : World) (req : ParameterizedRequest) (paramName : Str)
    (originalParams : UrlValues) (originalBody : Str) :
    List (Str × Str) → Option VulnerabilityResult
  | [] => none
  | test :: rest =>
    let trueParams := (copyParams originalParams).set paramName
      ((copyParams originalParams).get paramName ++ test.1)
    match sendRequest w trueParams with
    | none => boolLoop w req paramName originalParams originalBody rest
    | some (_, trueBody) =>
      let falseParams := (copyParams originalParams).set paramName
        ((copyParams originalParams).get paramName ++ test.2)
      match sendRequest w falseParams with
      | none => boolLoop w req paramName originalParams originalBody rest
      | some (_, falseBody) =>
        if !isDifferentResponse w originalBody trueBody
            && isDifferentResponse w originalBody falseBody then
          some (boolVuln w req paramName test.1 trueParams)
        else boolLoop w req paramName originalParams originalBody rest

/-- Source `testBooleanBased`. -/
def testBooleanBased (cat : Catalog) (w : World) (req : ParameterizedRequest)
    (paramName : Str) : Option VulnerabilityResult :=
  match getOriginalParams w with
  | none => none
  | some originalParams =>
    match sendRequest w originalParams with
    | none => none
    | some (_, originalBody) =>
      boolLoop w req paramName originalParams originalBody cat.BooleanSQLiTests

/-! ### Content-length probe (`testContentBased`, sqli.go lines 249-303) -/

/-- The fixed bypass-payload list embedded in `testContentBased`. -/
def bypassPayloads : List Str :=
  ["' OR 1=1--".toList, "' OR '1'='1'--".toList, " OR 1=1--".toList,
   "') OR 1=1--".toList, " OR 1=1#".toList, "' OR 1=1#".toList]

/-- The finding recorded by `testContentBased` (numeric diagnostics as template). -/
def contentVuln (w : World) (req : ParameterizedRequest) (paramName payload : Str)
    (testParams : UrlValues) : VulnerabilityResult :=
  { VulnerabilityType := "SQL Injection (Content-Based)".toList
    URL := findingURL w req testParams
    Parameter := paramName
    Payload := payload
    Details := ("The response length increased significantly (from %d to %d " ++
                "bytes) after injecting a bypass payload, suggesting the query " ++
                "returned additional data.").toList
    Severity := "High".toList
    Evidence := "Original Length: %d, Injected Length: %d".toList
    Location := getParamLocation req
    Remediation := "Use parameterized queries (prepared statements).".toList
    ScannerName := scannerName }

/-- The payload loop of `testContentBased`.  The `float64` ratio test
`float64(modifiedLength) > float64(originalLength)*1.1` is modelled exactly
over `ℚ`. -/
def contentLoop (w : World) (req : ParameterizedRequest) (paramName : Str)
    (originalParams : UrlValues) (originalLength : Nat) :
    List Str → Option VulnerabilityResult
  | [] => none
  | payload :: rest =>
    let testParams := (copyParams originalParams).set paramName
      ((copyParams originalParams).get paramName ++ payload)
    match sendRequest w testParams with
    | none => contentLoop w req paramName originalParams originalLength rest
    | some (_, modifiedBody) =>
      let modifiedLength := modifiedBody.length
      if modifiedLength > originalLength ∧
          ((originalLength : ℚ) * (11 / 10) < (modifiedLength : ℚ)) then
        some (contentVuln w req paramName payload testParams)
      else contentLoop w req paramName originalParams originalLength rest

/-- Source `testContentBased`. -/
def testContentBased (w : World) (req : ParameterizedRequest)
    (paramName : Str) : Option VulnerabilityResult :=
  match getOriginalParams w with
  | none => none
  | some originalParams =>
    match sendRequest w originalParams with
    | none => none
    | some (_, originalBody) =>
      contentLoop w req paramName originalParams originalBody.length bypassPayloads

/-! ### Auth-bypass probe (`testAuthBypass`, sqli.go lines 306-439) -/

/-- The gate of `testAuthBypass`: login-style parameter names. -/
def loginUserParams : List Str :=
  ["username".toList, "user".toList, "email".toList, "login".toList]

/-- Success keywords scanned on the follow-up page after a redirect (Path A). -/
def successKeywordsA : List Str :=
  ["logout".toList, "my account".toList, "log out".toList, "sign out".toList]

/-- Success keywords scanned on the direct response body (Path B). -/
def successKeywordsB : List Str :=
  ["logout".toList, "my account".toList, "log out".toList,
   "sign out".toList, "welcome".toList]

/-- The keyword scan: first keyword contained in the lowercased body. -/
def findKeyword (keywords : List Str) (body : Str) : Option Str :=
  keywords.find? fun kw => strContains (lowerStr body) kw

/-- The test parameters of one auth-bypass attempt: the probed parameter is
*replaced* by the payload, and every parameter whose lowercased name contains
`password` is set to the dummy `password`. -/
def authTestParams (op : UrlValues) (paramName payload : Str) : UrlValues :=
  setPasswords (op.set paramName payload) ("password".toList)

/-- The Path B finding of `testAuthBypass`. -/
def authVulnB (req : ParameterizedRequest) (paramName payload kw : Str) :
    VulnerabilityResult :=
  { VulnerabilityType := "SQL Injection (Auth Bypass)".toList
    URL := req.URL
    Parameter := paramName
    Payload := payload
    Details := ("The response body was different from a normal failed login " ++
                "and contained a success keyword ('").toList ++ kw ++
               "') after injecting a bypass payload.".toList
    Severity := "High".toList
    Evidence := "Found keyword: '".toList ++ kw ++ "' in a modified response.".toList
    Location := getParamLocation req
    Remediation := "Use parameterized queries for all database interactions.".toList
    ScannerName := scannerName }

/-- The Path A finding of `testAuthBypass` (`c0` is the first session cookie). -/
def authVulnA (req : ParameterizedRequest) (paramName payload locationURL kw c0 : Str) :
    VulnerabilityResult :=
  { VulnerabilityType := "SQL Injection (Auth Bypass)".toList
    URL := req.URL
    Parameter := paramName
    Payload := payload
    Details := "The application redirected to ".toList ++ locationURL ++
               (" and a valid session was established after injecting " ++
                "a login bypass payload. The final page contained the " ++
                "keyword '").toList ++ kw ++ "'.".toList
    Severity := "High".toList
    Evidence := "Redirect Location: ".toList ++ locationURL ++
                ", Session Cookie: ".toList ++ c0
    Location := getParamLocation req
    Remediation := "Use parameterized queries for all database interactions.".toList
    ScannerName := scannerName }

/-- Path B of `testAuthBypass` (sqli.go lines 407-435): read the (non-followed)
response body; the response must differ from the failure baseline and contain
a success keyword. -/
def pathBcheck (w : World) (req : ParameterizedRequest) (paramName : Str)
    (failureBaselineBody : Str) (payload : Str) (resp : RawResp) :
    Option VulnerabilityResult :=
  match resp.body with
  | none => none
  | some bodyStr =>
    if isDifferentResponse w failureBaselineBody bodyStr then
      match findKeyword successKeywordsB bodyStr with
      | some kw => some (authVulnB req paramName payload kw)
      | none => none
    else none

/-- One auth-bypass payload attempt (the body of the `for _, payload` loop);
`none` is the `continue` outcome. -/
def authAttempt (w : World) (req : ParameterizedRequest) (paramName : Str)
    (failureBaselineBody : Str) (payload : Str) : Option VulnerabilityResult :=
  match getOriginalParams w with
  | none => none
  | some op =>
    let testParams := authTestParams op paramName payload
    match buildRequestComponents w req testParams with
    | none => none
    | some _ =>
      match w.sendNR testParams with
      | none => none
      | some resp =>
        if 300 ≤ resp.status ∧ resp.status < 400 then
          -- Path A: redirect with verified session.
          match resp.location with
          | none => none          -- cannot get Location: continue
          | some locationURL =>
            match resp.cookies with
            | [] => none          -- no cookie: continue
            | c0 :: _ =>
              match w.follow locationURL resp.cookies with
              | none => none      -- follow-up failed: continue
              | some finalBodyStr =>
                match findKeyword successKeywordsA finalBodyStr with
                | some kw =>
                  some (authVulnA req paramName payload locationURL kw c0)
                | none => pathBcheck w req paramName failureBaselineBody payload resp
        else pathBcheck w req paramName failureBaselineBody payload resp

/-- The payload loop of `testAuthBypass`. -/
def authLoop (w : World) (req : ParameterizedRequest) (paramName : Str)
    (failureBaselineBody : Str) : List Str → Option VulnerabilityResult
  | [] => none
  | payload :: rest =>
    match authAttempt w req paramName failureBaselineBody payload with
    | some v => some v
    | none => authLoop w req paramName failureBaselineBody rest

/-- The fixed bypass payloads of `testAuthBypass`. -/
def authBypassPayloads : List Str :=
  ["admin'--".toList, "administrator'--".toList, "' OR 1=1--".toList]

/-- Source `testAuthBypass`. -/
def testAuthBypass (w : World) (req : ParameterizedRequest)
    (paramName : Str) : Option VulnerabilityResult :=
  if !(loginUserParams.contains (lowerStr paramName)) then none
  else
    match getOriginalParams w with
    | none => none
    | some base0 =>
      let baseParams := setPasswords (base0.set paramName ("dursgo-test-user".toList))
        ("dursgo-test-pass".toList)
      match sendRequest w baseParams with
      | none => none
      | some (_, failureBaselineBody) =>
        authLoop w req paramName failureBaselineBody authBypassPayloads

/-! ### Dispatcher (`Scan`, sqli.go lines 53-111) -/

/-- The five-probe priority chain run for one parameter (the `ParamLoop` body). -/
def probeParam (cat : Catalog) (w : World) (req : ParameterizedRequest)
    (paramName : Str) : Option VulnerabilityResult :=
  match testErrorBased cat w req paramName with
  | some v => some v
  | none =>
    match testTimeBased cat w req paramName with
    | some v => some v
    | none =>
      match testBooleanBased cat w req paramName with
      | some v => some v
      | none =>
        match testContentBased w req paramName with
        | some v => some v
        | none => testAuthBypass w req paramName

/-- The `ParamLoop` over `req.ParamNames`. -/
def scanLoop (cat : Catalog) (w : World) (req : ParameterizedRequest) :
    List Str → List VulnerabilityResult
  | [] => []
  | paramName :: rest =>
    if ignoredParams.contains (lowerStr paramName) then scanLoop cat w req rest
    else
      match probeParam cat w req paramName with
      | some v => v :: scanLoop cat w req rest
      | none => scanLoop cat w req rest

/-- Source `Scan`: the second component is the returned `error` (`none` = Go `nil`). -/
def Scan (cat : Catalog) (w : World) (req : ParameterizedRequest) :
    List VulnerabilityResult × Option Str :=
  if req.Method ≠ ("GET".toList) ∧ req.Method ≠ ("POST".toList) then ([], none)
  else if specialPaths.any (fun p => strContains req.URL p) then ([], none)
  else (scanLoop cat w req req.ParamNames, none)

/-! ### Every finding carries the probed parameter name -/

theorem errPatLoop_param (w : World) (req : ParameterizedRequest) (pn payload : Str)
    (tp : UrlValues) (body : Str) :
    ∀ pats v, errPatLoop w req pn payload tp body pats = some v → v.Parameter = pn
  | [], v => by simp [errPatLoop]
  | pat :: rest, v => by
    intro h
    unfold errPatLoop at h
    cases hp : pat body with
    | some ev =>
      rw [hp] at h
      injection h with h2
      exact h2 ▸ rfl
    | none =>
      rw [hp] at h
      exact errPatLoop_param w req pn payload tp body rest v h

theorem errLoop_param (cat : Catalog) (w : World) (req : ParameterizedRequest) (pn : Str) :
    ∀ ps v, errLoop cat w req pn ps = some v → v.Parameter = pn
  | [], v => by simp [errLoop]
  | payload :: rest, v => by
    intro h
    unfold errLoop at h
    cases hop : getOriginalParams w with
    | none =>
      rw [hop] at h
      exact errLoop_param cat w req pn rest v h
    | some tp =>
      rw [hop] at h
      simp only at h
      cases hs : sendRequest w (tp.set pn (tp.get pn ++ payload)) with
      | none =>
        rw [hs] at h
        exact errLoop_param cat w req pn rest v h
      | some sb =>
        rw [hs] at h
        simp only at h
        cases hp : errPatLoop w req pn payload (tp.set pn (tp.get pn ++ payload)) sb.2
            cat.SQLiErrorPatterns with
        | some v2 =>
          rw [hp] at h
          injection h with h2
          exact h2 ▸ errPatLoop_param w req pn payload _ _ _ v2 hp
        | none =>
          rw [hp] at h
          exact errLoop_param cat w req pn rest v h

theorem timeLoop_param (w : World) (req : ParameterizedRequest) (pn : Str) (b : Nat) :
    ∀ ts v, timeLoop w req pn b ts = some v → v.Parameter = pn
  | [], v => by simp [timeLoop]
  | t :: rest, v => by
    intro h
    unfold timeLoop at h
    cases hop : getOriginalParams w with
    | none =>
      rw [hop] at h
      exact timeLoop_param w req pn b rest v h
    | some tp =>
      rw [hop] at h
      simp only at h
      cases hm : w.measure (tp.set pn (tp.get pn ++ replaceAll ("{DELAY}".toList) ("5".toList) t)) with
      | none =>
        rw [hm] at h
        exact timeLoop_param w req pn b rest v h
      | some d =>
        rw [hm] at h
        simp only at h
        by_cases hd : b + 4 * secondNs < d
        · rw [if_pos hd] at h
          injection h with h2
          exact h2 ▸ rfl
        · rw [if_neg hd] at h
          exact timeLoop_param w req pn b rest v h

theorem boolLoop_param (w : World) (req : ParameterizedRequest) (pn : Str)
    (op : UrlValues) (ob : Str) :
    ∀ ts v, boolLoop w req pn op ob ts = some v → v.Parameter = pn
  | [], v => by simp [boolLoop]
  | t :: rest, v => by
    intro h
    unfold boolLoop at h
    simp only at h
    cases h1 : sendRequest w ((copyParams op).set pn ((copyParams op).get pn ++ t.1)) with
    | none =>
      rw [h1] at h
      exact boolLoop_param w req pn op ob rest v h
    | some tb =>
      rw [h1] at h
      simp only at h
      cases h2 : sendRequest w ((copyParams op).set pn ((copyParams op).get pn ++ t.2)) with
      | none =>
        rw [h2] at h
        exact boolLoop_param w req pn op ob rest v h
      | some fb =>
        rw [h2] at h
        simp only at h
        by_cases hc : (!isDifferentResponse w ob tb.2 && isDifferentResponse w ob fb.2) = true
        · rw [if_pos hc] at h
          injection h with h3
          exact h3 ▸ rfl
        · rw [if_neg hc] at h
          exact boolLoop_param w req pn op ob rest v h

theorem contentLoop_param (w : World) (req : ParameterizedRequest) (pn : Str)
    (op : UrlValues) (ol : Nat) :
    ∀ ps v, contentLoop w req pn op ol ps = some v → v.Parameter = pn
  | [], v => by simp [contentLoop]
  | payload :: rest, v => by
    intro h
    unfold contentLoop at h
    simp only at h
    cases h1 : sendRequest w ((copyParams op).set pn ((copyParams op).get pn ++ payload)) with
    | none =>
      rw [h1] at h
      exact contentLoop_param w req pn op ol rest v h
    | some mb =>
      rw [h1] at h
      simp only at h
      by_cases hc : mb.2.length > ol ∧ ((ol : ℚ) * (11 / 10) < (mb.2.length : ℚ))
      · rw [if_pos hc] at h
        injection h with h2
        exact h2 ▸ rfl
      · rw [if_neg hc] at h
        exact contentLoop_param w req pn op ol rest v h

theorem pathBcheck_param (w : World) (req : ParameterizedRequest) (pn fbb payload : Str)
    (resp : RawResp) (v : VulnerabilityResult)
    (h : pathBcheck w req pn fbb payload resp = some v) : v.Parameter = pn := by
  unfold pathBcheck at h
  cases hb : resp.body with
  | none => rw [hb] at h; exact Option.noConfusion h
  | some bodyStr =>
    rw [hb] at h
    simp only at h
    by_cases hd : isDifferentResponse w fbb bodyStr = true
    · rw [if_pos hd] at h
      cases hk : findKeyword successKeywordsB bodyStr with
      | some kw =>
        rw [hk] at h
        injection h with h2
        exact h2 ▸ rfl
      | none => rw [hk] at h; exact Option.noConfusion h
    · rw [if_neg hd] at h
      exact Option.noConfusion h

theorem authAttempt_param (w : World) (req : ParameterizedRequest) (pn fbb payload : Str)
    (v : VulnerabilityResult)
    (h : authAttempt w req pn fbb payload = some v) : v.Parameter = pn := by
  unfold authAttempt at h
  cases hop : getOriginalParams w with
  | none => rw [hop] at h; exact Option.noConfusion h
  | some op =>
    rw [hop] at h
    simp only at h
    cases hb : buildRequestComponents w req (authTestParams op pn payload) with
    | none => rw [hb] at h; exact Option.noConfusion h
    | some u =>
      rw [hb] at h
      simp only at h
      cases hs : w.sendNR (authTestParams op pn payload) with
      | none => rw [hs] at h; exact Option.noConfusion h
      | some resp =>
        rw [hs] at h
        simp only at h
        by_cases hr : 300 ≤ resp.status ∧ resp.status < 400
        · rw [if_pos hr] at h
          cases hl : resp.location with
          | none => rw [hl] at h; exact Option.noConfusion h
          | some loc =>
            rw [hl] at h
            simp only at h
            cases hc : resp.cookies with
            | nil => rw [hc] at h; exact Option.noConfusion h
            | cons c0 cs =>
              rw [hc] at h
              simp only at h
              cases hf : w.follow loc resp.cookies with
              | none => rw [hc] at hf; rw [hf] at h; exact Option.noConfusion h
              | some finalBody =>
                rw [hc] at hf
                rw [hf] at h
                simp only at h
                cases hk : findKeyword successKeywordsA finalBody with
                | some kw =>
                  rw [hk] at h
                  injection h with h2
                  exact h2 ▸ rfl
                | none =>
                  rw [hk] at h
                  exact pathBcheck_param w req pn fbb payload resp v h
        · rw [if_neg hr] at h
          exact pathBcheck_param w req pn fbb payload resp v h

theorem authLoop_param (w : World) (req : ParameterizedRequest) (pn fbb : Str) :
    ∀ ps v, authLoop w req pn fbb ps = some v → v.Parameter = pn
  | [], v => by simp [authLoop]
  | payload :: rest, v => by
    intro h
    unfold authLoop at h
    cases ha : authAttempt w req pn fbb payload with
    | some v2 =>
      rw [ha] at h
      injection h with h2
      exact h2 ▸ authAttempt_param w req pn fbb payload v2 ha
    | none =>
      rw [ha] at h
      exact authLoop_param w req pn fbb rest v h

theorem testAuthBypass_param (w : World) (req : ParameterizedRequest) (pn : Str)
    (v : VulnerabilityResult)
    (h : testAuthBypass w req pn = some v) : v.Parameter = pn := by
  unfold testAuthBypass at h
  by_cases hg : (!(loginUserParams.contains (lowerStr pn))) = true
  · rw [if_pos hg] at h; exact Option.noConfusion h
  · rw [if_neg hg] at h
    cases hop : getOriginalParams w with
    | none => rw [hop] at h; exact Option.noConfusion h
    | some base0 =>
      rw [hop] at h
      simp only at h
      cases hs : sendRequest w
          (setPasswords (base0.set pn ("dursgo-test-user".toList)) ("dursgo-test-pass".toList)) with
      | none => rw [hs] at h; exact Option.noConfusion h
      | some fb =>
        rw [hs] at h
        simp only at h
        exact authLoop_param w req pn fb.2 authBypassPayloads v h

theorem probeParam_param (cat : Catalog) (w : World) (req : ParameterizedRequest) (pn : Str)
    (v : VulnerabilityResult)
    (h : probeParam cat w req pn = some v) : v.Parameter = pn := by
  unfold probeParam at h
  cases h1 : testErrorBased cat w req pn with
  | some v1 =>
    rw [h1] at h
    injection h with h2
    exact h2 ▸ errLoop_param cat w req pn cat.SQLiPayloads v1 h1
  | none =>
    rw [h1] at h
    simp only at h
    cases h2 : testTimeBased cat w req pn with
    | some v2 =>
      rw [h2] at h
      injection h with h3
      subst h3
      unfold testTimeBased at h2
      cases hb : measureRequestDuration w none with
      | none => rw [hb] at h2; exact Option.noConfusion h2
      | some b =>
        rw [hb] at h2
        exact timeLoop_param w req pn b cat.TimeBasedSQLiTests v2 h2
    | none =>
      rw [h2] at h
      simp only at h
      cases h3 : testBooleanBased cat w req pn with
      | some v3 =>
        rw [h3] at h
        injection h with h4
        subst h4
        unfold testBooleanBased at h3
        cases hop : getOriginalParams w with
        | none => rw [hop] at h3; exact Option.noConfusion h3
        | some op =>
          rw [hop] at h3
          simp only at h3
          cases hs : sendRequest w op with
          | none => rw [hs] at h3; exact Option.noConfusion h3
          | some ob =>
            rw [hs] at h3
            simp only at h3
            exact boolLoop_param w req pn op ob.2 cat.BooleanSQLiTests v3 h3
      | none =>
        rw [h3] at h
        simp only at h
        cases h4 : testContentBased w req pn with
        | some v4 =>
          rw [h4] at h
          injection h with h5
          subst h5
          unfold testContentBased at h4
          cases hop : getOriginalParams w with
          | none => rw [hop] at h4; exact Option.noConfusion h4
          | some op =>
            rw [hop] at h4
            simp only at h4
            cases hs : sendRequest w op with
            | none => rw [hs] at h4; exact Option.noConfusion h4
            | some ob =>
              rw [hs] at h4
              simp only at h4
              exact contentLoop_param w req pn op ob.2.length bypassPayloads v4 h4
        | none =>
          rw [h4] at h
          exact testAuthBypass_param w req pn v h

/-- The parameters named by the findings of the dispatcher loop form a sublist
of the non-ignored parameter names, in order. -/
theorem scanLoop_sublist (cat : Catalog) (w : World) (req : ParameterizedRequest) :
    ∀ names, ((scanLoop cat w req names).map (fun v => v.Parameter)).Sublist
      (names.filter (fun n => !(ignoredParams.contains (lowerStr n))))
  | [] => by simp [scanLoop]
  | pn :: rest => by
    unfold scanLoop
    by_cases hi : (ignoredParams.contains (lowerStr pn)) = true
    · rw [if_pos hi]
      have hi2 : lowerStr pn ∈ ignoredParams := by simpa using hi
      have hf : (pn :: rest).filter (fun n => !(ignoredParams.contains (lowerStr n))) =
          rest.filter (fun n => !(ignoredParams.contains (lowerStr n))) := by
        simp [List.filter_cons, hi2]
      rw [hf]
      exact scanLoop_sublist cat w req rest
    · rw [if_neg hi]
      have hi2 : ¬ (lowerStr pn ∈ ignoredParams) := by simpa using hi
      have hf : (pn :: rest).filter (fun n => !(ignoredParams.contains (lowerStr n))) =
          pn :: rest.filter (fun n => !(ignoredParams.contains (lowerStr n))) := by
        simp [List.filter_cons, hi2]
      rw [hf]
      cases hp : probeParam cat w req pn with
      | some v =>
        simp only [List.map_cons]
        rw [probeParam_param cat w req pn v hp]
        exact List.Sublist.cons₂ pn (scanLoop_sublist cat w req rest)
      | none =>
        exact List.Sublist.cons pn (scanLoop_sublist cat w req rest)

/-- Claim C8: `Scan` returns a `nil` error on every input request and every
environment outcome: each return site of the source pairs the findings with a
`nil` error. -/
theorem sqli_C8_never_errors (cat : Catalog) (w : World) (req : ParameterizedRequest) :
    (Scan cat w req).2 = none := by
  unfold Scan
  split
  · rfl
  · split
    · rfl
    · rfl

/-- Claim C7: for every request whose method is neither GET nor POST, and every
request whose URL contains `/comment` or `/register`, `Scan` returns an empty
findings list. -/
theorem sqli_C7_prefilters (cat : Catalog) (w : World) (req : ParameterizedRequest)
    (h : (req.Method ≠ ("GET".toList) ∧ req.Method ≠ ("POST".toList)) ∨
         strContains req.URL ("/comment".toList) = true ∨
         strContains req.URL ("/register".toList) = true) :
    (Scan cat w req).1 = [] := by
  unfold Scan
  by_cases hm : req.Method ≠ ("GET".toList) ∧ req.Method ≠ ("POST".toList)
  · rw [if_pos hm]
  · rw [if_neg hm]
    have hsp : (specialPaths.any (fun p => strContains req.URL p)) = true := by
      rcases h with h | h | h
      · exact absurd h hm
      · simp only [specialPaths, List.any_cons, List.any_nil,
          Bool.or_false, Bool.or_eq_true]
        exact Or.inl h
      · simp only [specialPaths, List.any_cons, List.any_nil,
          Bool.or_false, Bool.or_eq_true]
        exact Or.inr h
    rw [if_pos hsp]

/-- Witness for C7 at a concrete input: a PUT request is filtered out. -/
theorem sqli_C7_witness :
    ((("PUT".toList : Str) ≠ ("GET".toList) ∧ ("PUT".toList : Str) ≠ ("POST".toList)) ∨
      strContains ("http://x/a".toList) ("/comment".toList) = true ∨
      strContains ("http://x/a".toList) ("/register".toList) = true) ∧
    (Scan ⟨[], [], [], []⟩
      ⟨none, fun _ => none, fun _ => none, fun _ => none, fun _ => none,
       fun _ _ => none, fun _ _ => 0⟩
      ⟨"PUT".toList, "http://x/a".toList, [], ["id".toList]⟩).1 = [] := by
  refine ⟨Or.inl (by decide), ?_⟩
  exact sqli_C7_prefilters _ _ _ (Or.inl (by decide))

/-- Claim C9: no finding of `Scan` names an ignored parameter: every finding's
`Parameter` is a parameter the dispatcher actually probed, and the ignore
filter skips every name whose lowercased form is in
`{csrf, token, _token, csrf_token, _csrf_token}`. -/
theorem sqli_C9_ignored_params (cat : Catalog) (w : World) (req : ParameterizedRequest) :
    ((Scan cat w req).1.all
      (fun v => !(ignoredParams.contains (lowerStr v.Parameter)))) = true := by
  unfold Scan
  split
  · rfl
  · split
    · rfl
    · simp only
      rw [List.all_eq_true]
      intro v hv
      have hmem : v.Parameter ∈ (scanLoop cat w req req.ParamNames).map
          (fun v => v.Parameter) := List.mem_map_of_mem _ hv
      have hmem2 : v.Parameter ∈ req.ParamNames.filter
          (fun n => !(ignoredParams.contains (lowerStr n))) :=
        (scanLoop_sublist cat w req req.ParamNames).subset hmem
      exact (List.mem_filter.mp hmem2).2

/-! ### C3: findings per (method, url, parameter) -/

/-- A catalog whose only error payload always matches (models a catalog regex
matching every body, with an empty `FindString`). -/
def c3cat : Catalog :=
  { SQLiPayloads := ["'".toList]
    SQLiErrorPatterns := [fun _ => some []]
    TimeBasedSQLiTests := []
    BooleanSQLiTests := [] }

/-- An environment in which every request succeeds with the same body. -/
def c3w : World :=
  { origParams := some ⟨[("id".toList, ["1".toList])]⟩
    buildURL := fun _ => some ("u".toList)
    send := fun _ => some (200, [])
    measure := fun _ => none
    sendNR := fun _ => none
    follow := fun _ _ => none
    levDist := fun _ _ => 0 }

/-- A request that lists the same parameter name twice. -/
def c3req : ParameterizedRequest :=
  ⟨"GET".toList, "http://x/item".toList, [], ["id".toList, "id".toList]⟩

/-- Claim C3, counterexample: when `paramNames` lists the same name twice, the
dispatcher loop probes it twice and `Scan` returns two findings with the same
`(method, url, parameter)` tuple: the claim is false as stated. -/
theorem sqli_C3_counterexample :
    ((Scan c3cat c3w c3req).1.map (fun v => v.Parameter)) =
      ["id".toList, "id".toList] := by
  decide

/-- Claim C3, amended: provided the request's `paramNames` are duplicate-free,
the findings of `Scan` name pairwise-distinct parameters — in general `Scan`
produces at most one finding per *occurrence* of a name in `paramNames`. -/
theorem sqli_C3_amended (cat : Catalog) (w : World) (req : ParameterizedRequest)
    (h : req.ParamNames.Nodup) :
    ((Scan cat w req).1.map (fun v => v.Parameter)).Nodup := by
  unfold Scan
  split
  · simp
  · split
    · simp
    · simp only
      exact ((scanLoop_sublist cat w req req.ParamNames).nodup (h.filter _))

/-- Witness for the amended C3 at a concrete input. -/
theorem sqli_C3_amended_witness :
    (["id".toList] : List Str).Nodup ∧
    ((Scan c3cat c3w
        ⟨"GET".toList, "http://x/item".toList, [], ["id".toList]⟩).1.map
      (fun v => v.Parameter)).Nodup :=
  ⟨by decide, sqli_C3_amended _ _ _ (by decide)⟩

/-! ### C1: boolean-differential probe -/

/-- The spec's per-pair decision (§4.6): both injected requests succeed, the
TRUE body is *not* different from the original, and the FALSE body *is*. -/
def boolPairFires (w : World) (pn : Str) (op : UrlValues) (ob : Str)
    (pr : Str × Str) : Bool :=
  match sendRequest w ((copyParams op).set pn ((copyParams op).get pn ++ pr.1)),
        sendRequest w ((copyParams op).set pn ((copyParams op).get pn ++ pr.2)) with
  | some (_, tb), some (_, fb) =>
    !isDifferentResponse w ob tb && isDifferentResponse w ob fb
  | _, _ => false

theorem boolLoop_cons_false (w : World) (req : ParameterizedRequest) (pn : Str)
    (op : UrlValues) (ob : Str) (t : Str × Str) (rest : List (Str × Str))
    (h : boolPairFires w pn op ob t = false) :
    boolLoop w req pn op ob (t :: rest) = boolLoop w req pn op ob rest := by
  unfold boolPairFires at h
  cases h1 : sendRequest w ((copyParams op).set pn ((copyParams op).get pn ++ t.1)) with
  | none => rw [h1] at h; simp only [boolLoop, h1]
  | some tb =>
    obtain ⟨tst, tbody⟩ := tb
    rw [h1] at h
    cases h2 : sendRequest w ((copyParams op).set pn ((copyParams op).get pn ++ t.2)) with
    | none => rw [h2] at h; simp only [boolLoop, h1, h2]
    | some fb =>
      obtain ⟨fst2, fbody⟩ := fb
      rw [h2] at h
      simp only at h
      simp only [boolLoop, h1, h2, h, Bool.false_eq_true, if_false]

theorem boolLoop_cons_true (w : World) (req : ParameterizedRequest) (pn : Str)
    (op : UrlValues) (ob : Str) (t : Str × Str) (rest : List (Str × Str))
    (h : boolPairFires w pn op ob t = true) :
    ∃ v, boolLoop w req pn op ob (t :: rest) = some v ∧ v.Payload = t.1 := by
  unfold boolPairFires at h
  cases h1 : sendRequest w ((copyParams op).set pn ((copyParams op).get pn ++ t.1)) with
  | none => rw [h1] at h; simp at h
  | some tb =>
    obtain ⟨tst, tbody⟩ := tb
    rw [h1] at h
    cases h2 : sendRequest w ((copyParams op).set pn ((copyParams op).get pn ++ t.2)) with
    | none => rw [h2] at h; simp at h
    | some fb =>
      obtain ⟨fst2, fbody⟩ := fb
      rw [h2] at h
      simp only at h
      refine ⟨boolVuln w req pn t.1 ((copyParams op).set pn ((copyParams op).get pn ++ t.1)),
        ?_, rfl⟩
      simp only [boolLoop, h1, h2]
      rw [if_pos h]

/-- The first-match characterization of the boolean pair loop. -/
theorem boolLoop_char (w : World) (req : ParameterizedRequest) (pn : Str)
    (op : UrlValues) (ob : Str) :
    ∀ ts : List (Str × Str),
      (∀ v, boolLoop w req pn op ob ts = some v →
        ∃ pre pr post, ts = pre ++ pr :: post ∧
          (∀ q ∈ pre, boolPairFires w pn op ob q = false) ∧
          boolPairFires w pn op ob pr = true ∧ v.Payload = pr.1) ∧
      ((∃ pr ∈ ts, boolPairFires w pn op ob pr = true) →
        ∃ v, boolLoop w req pn op ob ts = some v)
  | [] => by
    constructor
    · intro v h
      simp [boolLoop] at h
    · intro ⟨pr, hpr, _⟩
      simp at hpr
  | t :: rest => by
    by_cases hf : boolPairFires w pn op ob t = true
    · obtain ⟨v, hv, hp⟩ := boolLoop_cons_true w req pn op ob t rest hf
      constructor
      · intro v2 h2
        rw [hv] at h2
        injection h2 with h3
        exact ⟨[], t, rest, rfl, by simp, hf, h3 ▸ hp⟩
      · intro _
        exact ⟨v, hv⟩
    · have hf2 : boolPairFires w pn op ob t = false := by
        cases hb : boolPairFires w pn op ob t
        · rfl
        · exact absurd hb hf
      have heq := boolLoop_cons_false w req pn op ob t rest hf2
      obtain ⟨ih1, ih2⟩ := boolLoop_char w req pn op ob rest
      constructor
      · intro v h
        rw [heq] at h
        obtain ⟨pre, pr, post, hsplit, hpre, hfire, hpay⟩ := ih1 v h
        refine ⟨t :: pre, pr, post, by rw [hsplit]; rfl, ?_, hfire, hpay⟩
        intro q hq
        rcases List.mem_cons.mp hq with hq | hq
        · rw [hq]; exact hf2
        · exact hpre q hq
      · intro ⟨pr, hpr, hfire⟩
        rw [heq]
        rcases List.mem_cons.mp hpr with hq | hq
        · rw [hq] at hfire
          exact absurd hfire hf
        · exact ih2 ⟨pr, hq, hfire⟩

/-- Claim C1: the boolean-differential probe, given a successful baseline: a hit is
declared exactly when some `(truePayload, falsePayload)` pair satisfies the
two-sided decision `¬isDifferent(originalBody, trueBody) ∧
isDifferent(originalBody, falseBody)` (pairs with a failed injected request
never fire), the first matching pair wins, and the reported payload is that
pair's `truePayload`. -/
theorem sqli_C1_boolean (cat : Catalog) (w : World) (req : ParameterizedRequest)
    (pn : Str) (op : UrlValues) (st : Nat) (ob : Str)
    (hop : w.origParams = some op) (hb : w.send op = some (st, ob)) :
    (∀ v, testBooleanBased cat w req pn = some v →
      ∃ pre pr post, cat.BooleanSQLiTests = pre ++ pr :: post ∧
        (∀ q ∈ pre, boolPairFires w pn op ob q = false) ∧
        boolPairFires w pn op ob pr = true ∧ v.Payload = pr.1) ∧
    ((∃ pr ∈ cat.BooleanSQLiTests, boolPairFires w pn op ob pr = true) →
      ∃ v, testBooleanBased cat w req pn = some v) := by
  have hrw : testBooleanBased cat w req pn =
      boolLoop w req pn op ob cat.BooleanSQLiTests := by
    unfold testBooleanBased getOriginalParams sendRequest
    rw [hop]
    simp only [hb]
  rw [hrw]
  exact boolLoop_char w req pn op ob cat.BooleanSQLiTests

/-- Concrete data for the C1 witness: one boolean pair whose TRUE request
reproduces the baseline body and whose FALSE request changes it. -/
def c1op : UrlValues := ⟨[("id".toList, ["1".toList])]⟩

def c1falseParams : UrlValues := ⟨[("id".toList, ["1F".toList])]⟩

def c1w : World :=
  { origParams := some c1op
    buildURL := fun _ => some []
    send := fun p => if p = c1falseParams then some (200, "x".toList) else some (200, [])
    measure := fun _ => none
    sendNR := fun _ => none
    follow := fun _ _ => none
    levDist := fun a b => if a = b then 0 else 1 }

def c1cat : Catalog :=
  { SQLiPayloads := []
    SQLiErrorPatterns := []
    TimeBasedSQLiTests := []
    BooleanSQLiTests := [("T".toList, "F".toList)] }

def c1req : ParameterizedRequest :=
  ⟨"GET".toList, "http://x/p".toList, [], ["id".toList]⟩

/-- Witness for C1 at a concrete input. -/
theorem sqli_C1_witness :
    c1w.origParams = some c1op ∧ c1w.send c1op = some (200, []) ∧
    ((∀ v, testBooleanBased c1cat c1w c1req ("id".toList) = some v →
      ∃ pre pr post, c1cat.BooleanSQLiTests = pre ++ pr :: post ∧
        (∀ q ∈ pre, boolPairFires c1w ("id".toList) c1op [] q = false) ∧
        boolPairFires c1w ("id".toList) c1op [] pr = true ∧ v.Payload = pr.1) ∧
    ((∃ pr ∈ c1cat.BooleanSQLiTests,
        boolPairFires c1w ("id".toList) c1op [] pr = true) →
      ∃ v, testBooleanBased c1cat c1w c1req ("id".toList) = some v)) :=
  ⟨by decide, by decide,
   sqli_C1_boolean c1cat c1w c1req ("id".toList) c1op 200 [] (by decide) (by decide)⟩

/-! ### C5: time-delay probe -/

/-- The time-delay probe as the spec words it (§4.5): the baseline duration is
measured on the request's **original parameters**; each template has `{DELAY}`
replaced by the literal `5` and the result appended to the original value; a
hit is declared exactly when the injected duration exceeds the baseline by
more than 4 seconds. -/
def timeLoop_spec (w : World) (req : ParameterizedRequest) (pn : Str)
    (op : UrlValues) (baseline : Nat) : List Str → Option VulnerabilityResult
  | [] => none
  | template :: rest =>
    let payloadStr := replaceAll ("{DELAY}".toList) ("5".toList) template
    let testParams := op.set pn (op.get pn ++ payloadStr)
    match w.measure testParams with
    | none => timeLoop_spec w req pn op baseline rest
    | some testDuration =>
      if baseline + 4 * secondNs < testDuration then
        some (timeVuln w req pn payloadStr testParams)
      else timeLoop_spec w req pn op baseline rest

/-- Spec wording of the whole probe: baseline on original parameters, no hit
when the original parameters cannot be obtained or the baseline measurement
fails. -/
def testTimeBased_spec (cat : Catalog) (w : World) (req : ParameterizedRequest)
    (pn : Str) : Option VulnerabilityResult :=
  match w.origParams with
  | none => none
  | some op =>
    match w.measure op with
    | none => none
    | some baseline => timeLoop_spec w req pn op baseline cat.TimeBasedSQLiTests

theorem timeLoop_eq_spec (w : World) (req : ParameterizedRequest) (pn : Str)
    (op : UrlValues) (b : Nat) (hop : w.origParams = some op) :
    ∀ ts, timeLoop w req pn b ts = timeLoop_spec w req pn op b ts
  | [] => by simp [timeLoop, timeLoop_spec]
  | t :: rest => by
    simp only [timeLoop, timeLoop_spec, getOriginalParams, hop]
    cases hm : w.measure (op.set pn (op.get pn ++
        replaceAll ("{DELAY}".toList) ("5".toList) t)) with
    | none => exact timeLoop_eq_spec w req pn op b hop rest
    | some d =>
      simp only
      by_cases hd : b + 4 * secondNs < d
      · rw [if_pos hd, if_pos hd]
      · rw [if_neg hd, if_neg hd]
        exact timeLoop_eq_spec w req pn op b hop rest

/-- Claim C5: the time-delay probe equals its spec-side restatement on every
input: the baseline is measured with the request's original parameters (the
`nil`-params call falls back to `getOriginalParams`), each template has
`{DELAY}` replaced by the literal `5` and appended to the original value, a
hit is declared exactly when the injected duration exceeds the baseline plus
4 seconds, and a failed baseline capture (unparsable originals or failed
measurement) yields no hit. -/
theorem sqli_C5_timeBased (cat : Catalog) (w : World) (req : ParameterizedRequest)
    (pn : Str) :
    testTimeBased cat w req pn = testTimeBased_spec cat w req pn := by
  unfold testTimeBased testTimeBased_spec measureRequestDuration getOriginalParams
  cases hop : w.origParams with
  | none => rfl
  | some op =>
    simp only
    cases hm : w.measure op with
    | none => rfl
    | some b =>
      simp only
      exact timeLoop_eq_spec w req pn op b hop cat.TimeBasedSQLiTests

/-! ### C6: content-length probe -/

/-- The content-length loop as the claim words it: for each bypass payload
appended to the original parameter value, a hit is declared exactly when
`modifiedLength > originalLength * 1.1` **and**
`modifiedLength > originalLength`. -/
def contentLoop_spec (w : World) (req : ParameterizedRequest) (pn : Str)
    (op : UrlValues) (ol : Nat) : List Str → Option VulnerabilityResult
  | [] => none
  | payload :: rest =>
    let testParams := op.set pn (op.get pn ++ payload)
    match w.send testParams with
    | none => contentLoop_spec w req pn op ol rest
    | some (_, modifiedBody) =>
      if ((ol : ℚ) * (11 / 10) < (modifiedBody.length : ℚ)) ∧ modifiedBody.length > ol then
        some (contentVuln w req pn payload testParams)
      else contentLoop_spec w req pn op ol rest

/-- Spec wording of the whole probe over the six fixed bypass payloads. -/
def testContentBased_spec (w : World) (req : ParameterizedRequest) (pn : Str) :
    Option VulnerabilityResult :=
  match w.origParams with
  | none => none
  | some op =>
    match w.send op with
    | none => none
    | some (_, originalBody) =>
      contentLoop_spec w req pn op originalBody.length bypassPayloads

theorem contentLoop_eq_spec (w : World) (req : ParameterizedRequest) (pn : Str)
    (op : UrlValues) (ol : Nat) :
    ∀ ps, contentLoop w req pn op ol ps = contentLoop_spec w req pn op ol ps
  | [] => by simp [contentLoop, contentLoop_spec]
  | payload :: rest => by
    simp only [contentLoop, contentLoop_spec, sendRequest, copyParams]
    cases hs : w.send (op.set pn (op.get pn ++ payload)) with
    | none => exact contentLoop_eq_spec w req pn op ol rest
    | some mb =>
      obtain ⟨st2, mbody⟩ := mb
      simp only
      by_cases hc : mbody.length > ol ∧ ((ol : ℚ) * (11 / 10) < (mbody.length : ℚ))
      · rw [if_pos hc, if_pos ⟨hc.2, hc.1⟩]
      · rw [if_neg hc, if_neg (fun hc2 => hc ⟨hc2.2, hc2.1⟩)]
        exact contentLoop_eq_spec w req pn op ol rest

/-- Claim C6: the content-length probe equals its spec-side restatement on every
input: the six fixed bypass payloads are tried in order, each appended to the
original parameter value, and a hit is declared exactly when
`modifiedLength > originalLength * 1.1` and `modifiedLength > originalLength`,
the lengths being those of the injected and baseline response bodies. -/
theorem sqli_C6_contentBased (w : World) (req : ParameterizedRequest) (pn : Str) :
    testContentBased w req pn = testContentBased_spec w req pn := by
  unfold testContentBased testContentBased_spec getOriginalParams sendRequest
  cases hop : w.origParams with
  | none => rfl
  | some op =>
    simp only
    cases hs : w.send op with
    | none => rfl
    | some ob =>
      obtain ⟨st, obody⟩ := ob
      simp only
      exact contentLoop_eq_spec w req pn op obody.length bypassPayloads

/-! ### C10: empty baseline degenerates the content threshold -/

theorem contentLoop_empty_baseline (w : World) (req : ParameterizedRequest)
    (pn : Str) (op : UrlValues) :
    ∀ pre p post stp mb,
      (∀ q ∈ pre, ∀ st2 b, w.send (op.set pn (op.get pn ++ q)) = some (st2, b) → b = []) →
      w.send (op.set pn (op.get pn ++ p)) = some (stp, mb) → mb ≠ [] →
      contentLoop w req pn op 0 (pre ++ p :: post) =
        some (contentVuln w req pn p (op.set pn (op.get pn ++ p)))
  | [], p, post, stp, mb => by
    intro _ hp hmb
    simp only [List.nil_append, contentLoop, sendRequest, copyParams, hp]
    rw [if_pos]
    constructor
    · exact List.length_pos.mpr hmb
    · rw [Nat.cast_zero, zero_mul]
      exact_mod_cast List.length_pos.mpr hmb
  | q :: pre, p, post, stp, mb => by
    intro hpre hp hmb
    have hstep : contentLoop w req pn op 0 ((q :: pre) ++ p :: post) =
        contentLoop w req pn op 0 (pre ++ p :: post) := by
      simp only [List.cons_append, contentLoop, sendRequest, copyParams]
      cases hq : w.send (op.set pn (op.get pn ++ q)) with
      | none => rfl
      | some qb =>
        obtain ⟨qst, qbody⟩ := qb
        have hq0 : qbody = [] := hpre q (List.mem_cons_self q pre) qst qbody hq
        simp only [hq0]
        rfl
    rw [hstep]
    exact contentLoop_empty_baseline w req pn op pre p post stp mb
      (fun r hr => hpre r (List.mem_cons_of_mem q hr)) hp hmb

/-- Claim C10: if the content-length baseline succeeds with an empty body
(`originalLength = 0`), the threshold degenerates to `modifiedLength > 0`: the
first bypass payload whose injected request succeeds with a non-empty body
(every earlier payload failing or returning an empty body) produces a
Content-Based finding carrying that payload. -/
theorem sqli_C10_empty_baseline (w : World) (req : ParameterizedRequest)
    (pn : Str) (op : UrlValues) (st stp : Nat) (mb : Str)
    (pre post : List Str) (p : Str)
    (hop : w.origParams = some op)
    (hbase : w.send op = some (st, []))
    (hsplit : bypassPayloads = pre ++ p :: post)
    (hpre : ∀ q ∈ pre, ∀ st2 b, w.send (op.set pn (op.get pn ++ q)) = some (st2, b) → b = [])
    (hp : w.send (op.set pn (op.get pn ++ p)) = some (stp, mb))
    (hmb : mb ≠ []) :
    testContentBased w req pn =
      some (contentVuln w req pn p (op.set pn (op.get pn ++ p))) ∧
    (contentVuln w req pn p (op.set pn (op.get pn ++ p))).Payload = p ∧
    (contentVuln w req pn p (op.set pn (op.get pn ++ p))).VulnerabilityType =
      "SQL Injection (Content-Based)".toList := by
  refine ⟨?_, rfl, rfl⟩
  unfold testContentBased getOriginalParams sendRequest
  rw [hop]
  simp only [hbase]
  rw [hsplit]
  exact contentLoop_empty_baseline w req pn op pre p post stp mb hpre hp hmb

/-- Concrete data for the C10 witness: an empty baseline body and a first
bypass payload that returns a one-byte body. -/
def c10op : UrlValues := ⟨[("id".toList, ["1".toList])]⟩

def c10inj : UrlValues := ⟨[("id".toList, [("1' OR 1=1--").toList])]⟩

def c10w : World :=
  { origParams := some c10op
    buildURL := fun _ => some []
    send := fun p => if p = c10inj then some (200, "x".toList) else some (200, [])
    measure := fun _ => none
    sendNR := fun _ => none
    follow := fun _ _ => none
    levDist := fun _ _ => 0 }

def c10req : ParameterizedRequest :=
  ⟨"GET".toList, "http://x/list".toList, [], ["id".toList]⟩

/-- Witness for C10 at a concrete input. -/
theorem sqli_C10_witness :
    c10w.origParams = some c10op ∧ c10w.send c10op = some (200, []) ∧
    testContentBased c10w c10req ("id".toList) =
      some (contentVuln c10w c10req ("id".toList) ("' OR 1=1--".toList)
        (c10op.set ("id".toList) (c10op.get ("id".toList) ++ "' OR 1=1--".toList))) :=
  ⟨by decide, by decide,
   (sqli_C10_empty_baseline c10w c10req ("id".toList) c10op 200 200 ("x".toList)
      [] (bypassPayloads.tail) ("' OR 1=1--".toList)
      (by decide) (by decide) (by decide)
      (by intro q hq; exact absurd hq (by simp))
      (by decide) (by decide)).1⟩

/-! ### C2: auth-bypass acceptance paths -/

/-- Original parameters of a login form for the C2 scenarios. -/
def c2op : UrlValues := ⟨[("username".toList, ["u".toList]), ("password".toList, ["p".toList])]⟩

/-- A redirect response with no parsable `Location`, no cookies, and a body
that differs from the failure baseline and contains a success keyword. -/
def c2resp : RawResp := ⟨302, none, [], some ("logout".toList)⟩

/-- Environment for the C2 counterexample: every injected auth-bypass request
succeeds and yields `c2resp`; the failure baseline body is empty. -/
def c2w : World :=
  { origParams := some c2op
    buildURL := fun _ => some []
    send := fun _ => some (200, [])
    measure := fun _ => none
    sendNR := fun _ => some c2resp
    follow := fun _ _ => none
    levDist := fun a b => if a = b then 0 else 1 }

def c2req : ParameterizedRequest :=
  ⟨"POST".toList, "http://x/login".toList, "username=u&password=p".toList,
   ["username".toList]⟩

theorem c2_isDifferent_eval : isDifferentResponse c2w [] ("logout".toList) = true := by
  have h6 : ("logout".toList : Str).length = 6 := by decide
  have hlev : c2w.levDist [] ("logout".toList) = 1 := by decide
  unfold isDifferentResponse
  rw [hlev, h6]
  simp only [List.length_nil]
  norm_num

theorem c2_pathB_eval :
    pathBcheck c2w c2req ("username".toList) [] ("admin'--".toList) c2resp =
      some (authVulnB c2req ("username".toList) ("admin'--".toList) ("logout".toList)) := by
  unfold pathBcheck
  simp only [c2resp]
  rw [if_pos c2_isDifferent_eval]
  have hk : findKeyword successKeywordsB ("logout".toList) =
      some ("logout".toList) := by decide
  rw [hk]

/-- Claim C2, counterexample: a bypass payload attempt whose injected request
succeeds with a redirect (302) that has no parsable `Location`: Path A's
verification cannot complete, Path B — which would declare a hit on this
response — is never evaluated, and the probe reports nothing.  The claim that
Path B is checked whenever Path A does not declare a hit is false as stated. -/
theorem sqli_C2_counterexample :
    testAuthBypass c2w c2req ("username".toList) = none ∧
    c2w.sendNR (authTestParams c2op ("username".toList) ("admin'--".toList)) = some c2resp ∧
    (300 ≤ c2resp.status ∧ c2resp.status < 400) ∧ c2resp.location = none ∧
    (pathBcheck c2w c2req ("username".toList) [] ("admin'--".toList) c2resp).isSome = true := by
  refine ⟨by decide, by decide, by decide, by decide, ?_⟩
  rw [c2_pathB_eval]
  rfl

/-- Claim C2, amended: for an attempt whose injected request succeeds: Path B is
evaluated when the response is not a redirect, and when it is a redirect whose
full Path A verification (parsable `Location`, at least one cookie, successful
follow-up) completes without finding a success keyword; but when Path A's
verification aborts midway — unparsable `Location`, no cookies, or a failed
follow-up — the attempt is skipped entirely and Path B is not evaluated. -/
theorem sqli_C2_amended (w : World) (req : ParameterizedRequest)
    (pn fbb payload : Str) (op : UrlValues) (u : Str) (resp : RawResp)
    (hop : w.origParams = some op)
    (hbuild : buildRequestComponents w req (authTestParams op pn payload) = some u)
    (hsend : w.sendNR (authTestParams op pn payload) = some resp) :
    (¬(300 ≤ resp.status ∧ resp.status < 400) →
      authAttempt w req pn fbb payload = pathBcheck w req pn fbb payload resp) ∧
    (∀ loc finalBody, 300 ≤ resp.status → resp.status < 400 →
      resp.location = some loc → resp.cookies ≠ [] →
      w.follow loc resp.cookies = some finalBody →
      findKeyword successKeywordsA finalBody = none →
      authAttempt w req pn fbb payload = pathBcheck w req pn fbb payload resp) ∧
    (300 ≤ resp.status → resp.status < 400 →
      (resp.location = none ∨ resp.cookies = [] ∨
        (∀ loc, resp.location = some loc → w.follow loc resp.cookies = none)) →
      authAttempt w req pn fbb payload = none) := by
  refine ⟨?_, ?_, ?_⟩
  · intro hnr
    unfold authAttempt getOriginalParams
    rw [hop]
    simp only [hbuild, hsend]
    rw [if_neg hnr]
  · intro loc finalBody h3 h4 hloc hck hfol hkw
    unfold authAttempt getOriginalParams
    rw [hop]
    simp only [hbuild, hsend]
    rw [if_pos ⟨h3, h4⟩, hloc]
    simp only
    cases hcc : resp.cookies with
    | nil => exact absurd hcc hck
    | cons c0 cs =>
      simp only
      rw [hcc] at hfol
      rw [hfol]
      simp only
      rw [hkw]
  · intro h3 h4 habort
    unfold authAttempt getOriginalParams
    rw [hop]
    simp only [hbuild, hsend]
    rw [if_pos ⟨h3, h4⟩]
    rcases habort with hl | hc | hf
    · rw [hl]
    · cases hl2 : resp.location with
      | none => rfl
      | some loc =>
        simp only
        rw [hc]
    · cases hl2 : resp.location with
      | none => rfl
      | some loc =>
        simp only
        cases hcc : resp.cookies with
        | nil => rfl
        | cons c0 cs =>
          simp only
          have := hf loc hl2
          rw [hcc] at this
          rw [this]

/-- Witness for the amended C2 at a concrete input (the counterexample's
environment: a redirect with no `Location`). -/
theorem sqli_C2_amended_witness :
    c2w.origParams = some c2op ∧
    buildRequestComponents c2w c2req
      (authTestParams c2op ("username".toList) ("admin'--".toList)) =
      some ("http://x/login".toList) ∧
    c2w.sendNR (authTestParams c2op ("username".toList) ("admin'--".toList)) =
      some c2resp ∧
    ((¬(300 ≤ c2resp.status ∧ c2resp.status < 400) →
      authAttempt c2w c2req ("username".toList) [] ("admin'--".toList) =
        pathBcheck c2w c2req ("username".toList) [] ("admin'--".toList) c2resp) ∧
    (∀ loc finalBody, 300 ≤ c2resp.status → c2resp.status < 400 →
      c2resp.location = some loc → c2resp.cookies ≠ [] →
      c2w.follow loc c2resp.cookies = some finalBody →
      findKeyword successKeywordsA finalBody = none →
      authAttempt c2w c2req ("username".toList) [] ("admin'--".toList) =
        pathBcheck c2w c2req ("username".toList) [] ("admin'--".toList) c2resp) ∧
    (300 ≤ c2resp.status → c2resp.status < 400 →
      (c2resp.location = none ∨ c2resp.cookies = [] ∨
        (∀ loc, c2resp.location = some loc → c2w.follow loc c2resp.cookies = none)) →
      authAttempt c2w c2req ("username".toList) [] ("admin'--".toList) = none)) :=
  ⟨by decide, by decide, by decide,
   sqli_C2_amended c2w c2req ("username".toList) [] ("admin'--".toList) c2op
     ("http://x/login".toList) c2resp (by decide) (by decide) (by decide)⟩

end Dursgo
